import Mathlib

/-!
Verification of `src/program/show_cu_logs.py` (spool-labs/tape).

The script loads a JSON array of run records from `cu_logs.json`, keeps the
first three records, and prints each one as a markdown-style table: entries
sorted by instruction name, the cumulative `value` formatted with thousands
separators, and the signed `diff` formatted with thousands separators plus an
explicit `+` for strictly positive values.

The embedding below translates each piece of the script into executable Lean
definitions; file input is modelled as an explicit argument (absent file /
parse error / parsed data), and printed output as the list of strings passed
to `print`.
-/

namespace ShowCuLogs

/-- A measurement attached to one instruction name: the JSON object
`\x7b value: integer, diff: integer \x7d`. -/
structure Measurement where
  value : Int
  diff : Int
deriving DecidableEq

/-- The character for a single decimal digit `d < 10` (code point `48 + d`). -/
def digitChar (d : Nat) : Char := Char.ofNat (48 + d)

/-- The decimal digit characters of a natural number, most significant first.
This is the digit stream underlying CPython's rendering of a non-negative
integer, used by `fmt` below. -/
def natToDigits (n : Nat) : List Char :=
  if _h : n < 10 then [digitChar n]
  else natToDigits (n / 10) ++ [digitChar (n % 10)]
decreasing_by exact Nat.div_lt_self (by omega) (by omega)

/-- The lowest three decimal digits of `n`, zero padded to width three: the
shape of every comma group except the leading one. -/
def pad3 (n : Nat) : List Char :=
  [digitChar (n / 100), digitChar (n / 10 % 10), digitChar (n % 10)]

/-- Decimal digits of `n` with a comma inserted every three digits counted
from the right: CPython's `format(n, ",")` for a non-negative integer `n`. -/
def group3 (n : Nat) : List Char :=
  if _h : n < 1000 then natToDigits n
  else group3 (n / 1000) ++ ',' :: pad3 (n % 1000)
decreasing_by exact Nat.div_lt_self (by omega) (by omega)

/-- The comma groups of `group3 n`, as a list of digit blocks (most
significant block first); `group3 n` is these blocks joined by commas. -/
def group3Chunks (n : Nat) : List (List Char) :=
  if _h : n < 1000 then [natToDigits n]
  else group3Chunks (n / 1000) ++ [pad3 (n % 1000)]

/-- Source `fmt`: `return f"\x7bnum:,\x7d"` — the integer with thousands-group
separators; a minus sign precedes the grouped digits of `|num|` when
`num < 0`. -/
def fmt (num : Int) : String :=
  String.mk ((if num < 0 then ['-'] else []) ++ group3 num.natAbs)

/-- Source `fmt_diff`: `sign = "+" if num > 0 else ""` followed by
`return f"\x7bsign\x7d\x7bnum:,\x7d"`. -/
def fmt_diff (num : Int) : String :=
  (if 0 < num then "+" else "") ++ fmt num

-- Unfolding equations for the well-founded definitions above.

lemma natToDigits_base (n : Nat) (h : n < 10) : natToDigits n = [digitChar n] := by
  conv_lhs => rw [natToDigits]
  rw [dif_pos h]

lemma natToDigits_step (n : Nat) (h : ¬ n < 10) :
    natToDigits n = natToDigits (n / 10) ++ [digitChar (n % 10)] := by
  conv_lhs => rw [natToDigits]
  rw [dif_neg h]

lemma group3_base (n : Nat) (h : n < 1000) : group3 n = natToDigits n := by
  conv_lhs => rw [group3]
  rw [dif_pos h]

lemma group3_step (n : Nat) (h : ¬ n < 1000) :
    group3 n = group3 (n / 1000) ++ ',' :: pad3 (n % 1000) := by
  conv_lhs => rw [group3]
  rw [dif_neg h]

lemma group3Chunks_base (n : Nat) (h : n < 1000) : group3Chunks n = [natToDigits n] := by
  conv_lhs => rw [group3Chunks]
  rw [dif_pos h]

lemma group3Chunks_step (n : Nat) (h : ¬ n < 1000) :
    group3Chunks n = group3Chunks (n / 1000) ++ [pad3 (n % 1000)] := by
  conv_lhs => rw [group3Chunks]
  rw [dif_neg h]

/-- Splitting off the lowest comma group keeps exactly the decimal digits. -/
lemma natToDigits_thousand (n : Nat) (h : ¬ n < 1000) :
    natToDigits n = natToDigits (n / 1000) ++ pad3 (n % 1000) := by
  have h1 : ¬ n < 10 := by omega
  have h2 : ¬ n / 10 < 10 := by omega
  have h3 : ¬ n / 10 / 10 < 10 := by omega
  rw [natToDigits_step n h1, natToDigits_step _ h2, natToDigits_step _ h3]
  have e1 : n / 10 / 10 / 10 = n / 1000 := by omega
  have e2 : n / 10 / 10 % 10 = n % 1000 / 100 := by omega
  have e3 : n / 10 % 10 = n % 1000 / 10 % 10 := by omega
  have e4 : n % 10 = n % 1000 % 10 := by omega
  rw [e1, e2, e3, e4]
  simp [pad3, List.append_assoc]

lemma group3Chunks_ne_nil (n : Nat) : group3Chunks n ≠ [] := by
  induction n using group3Chunks.induct with
  | case1 n h => rw [group3Chunks_base n h]; simp
  | case2 n h ih => rw [group3Chunks_step n h]; simp

lemma group3Chunks_flatten (n : Nat) : (group3Chunks n).flatten = natToDigits n := by
  induction n using group3Chunks.induct with
  | case1 n h => rw [group3Chunks_base n h]; simp
  | case2 n h ih =>
    rw [group3Chunks_step n h, natToDigits_thousand n h]
    simp [ih]

lemma intersperse_append_singleton {α : Type} (s x : α) :
    ∀ l : List α, l ≠ [] →
      List.intersperse s (l ++ [x]) = List.intersperse s l ++ [s, x]
  | [], h => absurd rfl h
  | [a], _ => rfl
  | a :: b :: t, _ => by
    have ih := intersperse_append_singleton s x (b :: t) (by simp)
    simp only [List.cons_append, List.intersperse] at ih ⊢
    exact congrArg (fun l => a :: s :: l) ih

/-- `group3` is exactly the comma groups joined by commas. -/
lemma group3_eq_chunks (n : Nat) :
    group3 n = (List.intersperse [','] (group3Chunks n)).flatten := by
  induction n using group3Chunks.induct with
  | case1 n h => rw [group3_base n h, group3Chunks_base n h]; simp
  | case2 n h ih =>
    rw [group3_step n h, group3Chunks_step n h,
      intersperse_append_singleton _ _ _ (group3Chunks_ne_nil _)]
    simp [ih]

lemma natToDigits_ne_nil (n : Nat) : natToDigits n ≠ [] := by
  induction n using natToDigits.induct with
  | case1 n h => rw [natToDigits_base n h]; simp
  | case2 n h ih => rw [natToDigits_step n h]; simp

lemma natToDigits_len_le3 (n : Nat) (h : n < 1000) : (natToDigits n).length ≤ 3 := by
  by_cases h1 : n < 10
  · rw [natToDigits_base n h1]; simp
  · rw [natToDigits_step n h1]
    by_cases h2 : n / 10 < 10
    · rw [natToDigits_base _ h2]; simp
    · rw [natToDigits_step _ h2]
      have h3 : n / 10 / 10 < 10 := by omega
      rw [natToDigits_base _ h3]; simp

lemma digitChar_isDigit (d : Nat) (h : d < 10) : (digitChar d).isDigit = true := by
  interval_cases d <;> decide

lemma natToDigits_isDigit (n : Nat) : ∀ c ∈ natToDigits n, c.isDigit = true := by
  induction n using natToDigits.induct with
  | case1 n h =>
    rw [natToDigits_base n h]
    intro c hc
    simp only [List.mem_singleton] at hc
    subst hc
    exact digitChar_isDigit n h
  | case2 n h ih =>
    rw [natToDigits_step n h]
    intro c hc
    rcases List.mem_append.mp hc with h' | h'
    · exact ih c h'
    · simp only [List.mem_singleton] at h'
      subst h'
      exact digitChar_isDigit _ (by omega)

lemma pad3_isDigit (n : Nat) (h : n < 1000) : ∀ c ∈ pad3 n, c.isDigit = true := by
  intro c hc
  simp only [pad3, List.mem_cons, List.mem_singleton, List.not_mem_nil, or_false] at hc
  rcases hc with h' | h' | h' <;> subst h' <;> exact digitChar_isDigit _ (by omega)

lemma group3Chunks_isDigit (n : Nat) : ∀ l ∈ group3Chunks n, ∀ c ∈ l, c.isDigit = true := by
  induction n using group3Chunks.induct with
  | case1 n h =>
    rw [group3Chunks_base n h]
    intro l hl
    simp only [List.mem_singleton] at hl
    subst hl
    exact natToDigits_isDigit n
  | case2 n h ih =>
    rw [group3Chunks_step n h]
    intro l hl
    rcases List.mem_append.mp hl with h' | h'
    · exact ih l h'
    · simp only [List.mem_singleton] at h'
      subst h'
      exact pad3_isDigit _ (by omega)

lemma group3Chunks_shape (n : Nat) :
    ∃ c cs, group3Chunks n = c :: cs ∧ 1 ≤ c.length ∧ c.length ≤ 3
      ∧ ∀ l ∈ cs, l.length = 3 := by
  induction n using group3Chunks.induct with
  | case1 n h =>
    refine ⟨natToDigits n, [], group3Chunks_base n h, ?_, natToDigits_len_le3 n h, by simp⟩
    have := natToDigits_ne_nil n
    cases hd : natToDigits n with
    | nil => exact absurd hd this
    | cons a t => simp
  | case2 n h ih =>
    obtain ⟨c, cs, hc, h1, h2, h3⟩ := ih
    refine ⟨c, cs ++ [pad3 (n % 1000)], ?_, h1, h2, ?_⟩
    · rw [group3Chunks_step n h, hc]; simp
    · intro l hl
      rcases List.mem_append.mp hl with h' | h'
      · exact h3 l h'
      · simp only [List.mem_singleton] at h'
        subst h'
        simp [pad3]

lemma natToDigits_eq_digits (n : Nat) :
    0 < n → natToDigits n = ((Nat.digits 10 n).map digitChar).reverse := by
  induction n using natToDigits.induct with
  | case1 n h =>
    intro hpos
    rw [natToDigits_base n h, Nat.digits_def' (by norm_num : (1:ℕ) < 10) hpos]
    have hz : n / 10 = 0 := by omega
    have hm : n % 10 = n := by omega
    rw [hz, hm]
    simp
  | case2 n h ih =>
    intro hpos
    rw [natToDigits_step n h, Nat.digits_def' (by norm_num : (1:ℕ) < 10) hpos]
    rw [ih (by omega)]
    simp

lemma fmt_nonneg_data (n : Int) (h : 0 ≤ n) : (fmt n).data = group3 n.natAbs := by
  rw [fmt, if_neg (by omega)]
  simp

lemma string_empty_append (s : String) : "" ++ s = s := by
  apply String.ext
  rw [String.data_append]
  simp

/-- C2: `fmt_diff n` is `"+" ++ fmt n` for strictly positive `n` and plain
`fmt n` for `n ≤ 0`: zero gets no sign prefix and negative values keep only
the minus sign that `fmt` itself produces. -/
theorem fmt_diff_spec (n : Int) :
    (0 < n → fmt_diff n = "+" ++ fmt n) ∧ (n ≤ 0 → fmt_diff n = fmt n) := by
  constructor
  · intro h
    rw [fmt_diff, if_pos h]
  · intro h
    rw [fmt_diff, if_neg (by omega)]
    exact string_empty_append _

theorem fmt_diff_spec_witness :
    ((0:Int) < 7 ∧ fmt_diff 7 = "+" ++ fmt 7)
    ∧ ((-4:Int) ≤ 0 ∧ fmt_diff (-4) = fmt (-4))
    ∧ ((0:Int) ≤ 0 ∧ fmt_diff 0 = fmt 0) :=
  ⟨⟨by norm_num, (fmt_diff_spec 7).1 (by norm_num)⟩,
   ⟨by norm_num, (fmt_diff_spec (-4)).2 (by norm_num)⟩,
   ⟨le_refl 0, (fmt_diff_spec 0).2 (le_refl 0)⟩⟩

lemma fmt_thousand : fmt 1000 = "1,000" := by
  have h1 : group3 1000 = ['1', ',', '0', '0', '0'] := by
    rw [group3_step 1000 (by norm_num), group3_base 1 (by norm_num),
      natToDigits_base 1 (by norm_num)]
    norm_num [pad3]
    decide
  rw [fmt, if_neg (show ¬ (1000:Int) < 0 by norm_num)]
  rw [show (1000:Int).natAbs = 1000 from rfl, h1]
  decide

lemma fmt_zero : fmt 0 = "0" := by
  rw [fmt, if_neg (show ¬ (0:Int) < 0 by norm_num)]
  rw [show (0:Int).natAbs = 0 from rfl, group3_base 0 (by norm_num),
    natToDigits_base 0 (by norm_num)]
  decide

/-- C3: for non-negative `n`, the characters of `fmt n` are exactly the
comma groups of the decimal digits of `n` joined by commas, where the digit
stream is anchored to `Nat.digits`, the leading group has one to three
digits, every later group has exactly three, and every character is a digit
(hence no sign prefix appears); concretely `fmt 1000 = "1,000"` and
`fmt 0 = "0"`. -/
theorem fmt_groups_spec :
    (∀ n : Int, 0 ≤ n →
      (fmt n).data = (List.intersperse [','] (group3Chunks n.natAbs)).flatten
      ∧ (group3Chunks n.natAbs).flatten = natToDigits n.natAbs
      ∧ (0 < n → natToDigits n.natAbs = ((Nat.digits 10 n.natAbs).map digitChar).reverse)
      ∧ (∀ l ∈ group3Chunks n.natAbs, ∀ c ∈ l, c.isDigit = true)
      ∧ (∃ c cs, group3Chunks n.natAbs = c :: cs ∧ 1 ≤ c.length ∧ c.length ≤ 3
          ∧ ∀ l ∈ cs, l.length = 3))
    ∧ fmt 1000 = "1,000" ∧ fmt 0 = "0" := by
  refine ⟨fun n h => ⟨?_, group3Chunks_flatten _, ?_, group3Chunks_isDigit _,
    group3Chunks_shape _⟩, fmt_thousand, fmt_zero⟩
  · rw [fmt_nonneg_data n h, group3_eq_chunks]
  · intro hpos
    exact natToDigits_eq_digits _ (by omega)

theorem fmt_groups_spec_witness :
    (0:Int) ≤ 1234567
    ∧ ((fmt (1234567:Int)).data
        = (List.intersperse [','] (group3Chunks (1234567:Int).natAbs)).flatten
      ∧ (group3Chunks (1234567:Int).natAbs).flatten = natToDigits (1234567:Int).natAbs
      ∧ ((0:Int) < 1234567 → natToDigits (1234567:Int).natAbs
          = ((Nat.digits 10 (1234567:Int).natAbs).map digitChar).reverse)
      ∧ (∀ l ∈ group3Chunks (1234567:Int).natAbs, ∀ c ∈ l, c.isDigit = true)
      ∧ (∃ c cs, group3Chunks (1234567:Int).natAbs = c :: cs ∧ 1 ≤ c.length
          ∧ c.length ≤ 3 ∧ ∀ l ∈ cs, l.length = 3)) :=
  ⟨by norm_num, fmt_groups_spec.1 1234567 (by norm_num)⟩

/-- C9: for strictly positive `n`, `fmt (-n)` is `"-"` followed by `fmt n`,
so the comma grouping ignores the sign and is placed over the digits alone;
`fmt_diff (-n)` agrees because negative inputs get an empty sign prefix. -/
theorem fmt_neg_spec (n : Int) (h : 0 < n) :
    fmt (-n) = "-" ++ fmt n ∧ fmt_diff (-n) = "-" ++ fmt n := by
  have h1 : fmt (-n) = "-" ++ fmt n := by
    apply String.ext
    rw [String.data_append, fmt, fmt, if_pos (show -n < 0 by omega),
      if_neg (show ¬ n < 0 by omega), Int.natAbs_neg]
    rfl
  refine ⟨h1, ?_⟩
  rw [fmt_diff, if_neg (show ¬ (0:Int) < -n by omega), string_empty_append, h1]

theorem fmt_neg_spec_witness :
    (0:Int) < 1234
    ∧ (fmt (-(1234:Int)) = "-" ++ fmt 1234 ∧ fmt_diff (-(1234:Int)) = "-" ++ fmt 1234) :=
  ⟨by norm_num, fmt_neg_spec 1234 (by norm_num)⟩

/-- Comparison used by Python's `sorted(entries.items())`: tuples compare by
first component first, and since dictionary keys are unique the comparison
never reaches the second component, so the sort orders pairs by key. -/
def keyLe (a b : String × Measurement) : Prop := a.1 ≤ b.1

instance : DecidableRel keyLe :=
  fun a b => (inferInstance : Decidable (a.1 ≤ b.1))

instance : IsTotal (String × Measurement) keyLe :=
  ⟨fun a b => le_total a.1 b.1⟩

instance : IsTrans (String × Measurement) keyLe :=
  ⟨fun _ _ _ h1 h2 => le_trans h1 h2⟩

/-- Source `sorted(entries.items())`: the key-value pairs of the entries map
in ascending key order. -/
def sortEntries (entries : List (String × Measurement)) : List (String × Measurement) :=
  List.insertionSort keyLe entries

/-- Source `rows`: one `(Instruction, Value, Diff)` triple per entry, built
from the sorted items — the key unprocessed, the value through `fmt`, the
diff through `fmt_diff`. -/
def rows (entries : List (String × Measurement)) : List (String × String × String) :=
  (sortEntries entries).map (fun kv => (kv.1, fmt kv.2.value, fmt_diff kv.2.diff))

lemma sortEntries_pairwise_lt (e : List (String × Measurement))
    (hnd : (e.map Prod.fst).Nodup) :
    (sortEntries e).Pairwise (fun a b => a.1 < b.1) := by
  have hs : List.Pairwise keyLe (sortEntries e) := List.sorted_insertionSort keyLe e
  have hperm : List.Perm (sortEntries e) e := List.perm_insertionSort keyLe e
  have hnd2 : ((sortEntries e).map Prod.fst).Nodup :=
    ((hperm.map Prod.fst).symm).nodup hnd
  have hne : (sortEntries e).Pairwise (fun a b => a.1 ≠ b.1) :=
    List.pairwise_map.mp hnd2
  exact (hs.and hne).imp (fun hab => lt_of_le_of_ne hab.1 hab.2)

/-- C1: for entry lists with pairwise-distinct keys, the rendered rows do not
depend on the iteration order of the map (any permutation yields the same
rows), come out strictly ascending in the instruction name, and each row
carries an unprocessed instruction name from the input paired with its
formatted measurement. -/
theorem rows_sorted_spec (e₁ e₂ : List (String × Measurement))
    (hnd : (e₁.map Prod.fst).Nodup) (hp : List.Perm e₁ e₂) :
    rows e₁ = rows e₂
    ∧ (rows e₁).Pairwise (fun a b => a.1 < b.1)
    ∧ (∀ r ∈ rows e₁, ∃ m : Measurement,
        (r.1, m) ∈ e₁ ∧ r = (r.1, fmt m.value, fmt_diff m.diff)) := by
  have hsort : sortEntries e₁ = sortEntries e₂ := by
    haveI : IsAntisymm (String × Measurement) (fun a b => a.1 < b.1) :=
      ⟨fun a b h1 h2 => (lt_asymm h1 h2).elim⟩
    refine List.eq_of_perm_of_sorted (r := fun a b => a.1 < b.1) ?_ ?_ ?_
    · exact (List.perm_insertionSort keyLe e₁).trans
        (hp.trans (List.perm_insertionSort keyLe e₂).symm)
    · exact sortEntries_pairwise_lt e₁ hnd
    · exact sortEntries_pairwise_lt e₂ ((hp.map Prod.fst).nodup hnd)
  refine ⟨?_, ?_, ?_⟩
  · rw [rows, rows, hsort]
  · exact List.pairwise_map.mpr (sortEntries_pairwise_lt e₁ hnd)
  · intro r hr
    rw [rows] at hr
    obtain ⟨kv, hkv, hr⟩ := List.mem_map.mp hr
    refine ⟨kv.2, ?_, ?_⟩
    · have hm : kv ∈ e₁ := (List.perm_insertionSort keyLe e₁).subset hkv
      have : r.1 = kv.1 := by rw [← hr]
      rw [this]
      exact hm
    · rw [← hr]

theorem rows_sorted_spec_witness :
    (([("b", (⟨200, -5⟩ : Measurement)), ("a", ⟨1000000, 42⟩)].map Prod.fst).Nodup)
    ∧ List.Perm [("b", (⟨200, -5⟩ : Measurement)), ("a", ⟨1000000, 42⟩)]
        [("a", (⟨1000000, 42⟩ : Measurement)), ("b", ⟨200, -5⟩)]
    ∧ (rows [("b", (⟨200, -5⟩ : Measurement)), ("a", ⟨1000000, 42⟩)]
        = rows [("a", (⟨1000000, 42⟩ : Measurement)), ("b", ⟨200, -5⟩)]
      ∧ (rows [("b", (⟨200, -5⟩ : Measurement)), ("a", ⟨1000000, 42⟩)]).Pairwise
          (fun a b => a.1 < b.1)
      ∧ (∀ r ∈ rows [("b", (⟨200, -5⟩ : Measurement)), ("a", ⟨1000000, 42⟩)],
          ∃ m : Measurement,
            (r.1, m) ∈ [("b", (⟨200, -5⟩ : Measurement)), ("a", ⟨1000000, 42⟩)]
            ∧ r = (r.1, fmt m.value, fmt_diff m.diff))) :=
  ⟨by decide, by decide,
   rows_sorted_spec _ _ (by decide) (by decide)⟩

/-- One run record from the JSON array: a timestamp plus the entries map
(unique instruction names, modelled as an association list). -/
structure RunRecord where
  timestamp : String
  entries : List (String × Measurement)

/-- Source `data = data[:3]`: keep only the first three run records. -/
def selectRuns (data : List RunRecord) : List RunRecord := data.take 3

/-- Width of one column: the longest of the header and the cell texts. -/
def colWidth (header : String) (cells : List String) : Nat :=
  cells.foldr (fun c acc => max c.length acc) header.length

/-- Pad a cell on the right with spaces up to the column width. -/
def padTo (s : String) (w : Nat) : String :=
  s ++ String.mk (List.replicate (w - s.length) ' ')

/-- One grid line: the three cells padded to their column widths between
pipe separators. -/
def tableRow (w1 w2 w3 : Nat) (a b c : String) : String :=
  "| " ++ padTo a w1 ++ " | " ++ padTo b w2 ++ " | " ++ padTo c w3 ++ " |"

/-- The dashed separator line under the header row. -/
def sepRow (w1 w2 w3 : Nat) : String :=
  "|" ++ String.mk (List.replicate (w1 + 2) '-')
    ++ "|" ++ String.mk (List.replicate (w2 + 2) '-')
    ++ "|" ++ String.mk (List.replicate (w3 + 2) '-') ++ "|"

/-- Modelled from the spec: the third-party `tabulate` library (called with
`tablefmt="github"`) is not part of the repository sources; per the spec it
renders a column-aligned, markdown-table-compatible grid — a header row with
the given column headers, a separator row, and one aligned row per entry.
These are the lines of that grid for headers `Instruction`, `Compute Units`,
`Diff`. -/
def tableLines (rs : List (String × String × String)) : List String :=
  let w1 := colWidth "Instruction" (rs.map (fun r => r.1))
  let w2 := colWidth "Compute Units" (rs.map (fun r => r.2.1))
  let w3 := colWidth "Diff" (rs.map (fun r => r.2.2))
  tableRow w1 w2 w3 "Instruction" "Compute Units" "Diff"
    :: sepRow w1 w2 w3
    :: rs.map (fun r => tableRow w1 w2 w3 r.1 r.2.1 r.2.2)

/-- Modelled from the spec: the string `tabulate(rows, headers=..., ...)`
returns — the grid lines joined by newlines. -/
def tabulate (rs : List (String × String × String)) : String :=
  String.intercalate "\n" (tableLines rs)

/-- The five `print` calls of one loop iteration, in order: a blank line, the
`## Run at` header joined to the timestamp by the space `print` inserts
between its arguments, a blank line, the table, a trailing blank line. -/
def renderRun (d : RunRecord) : List String :=
  ["", "## Run at " ++ d.timestamp, "", tabulate (rows d.entries), ""]

/-- Everything printed by the `for d in data:` loop. -/
def renderAll (data : List RunRecord) : List String :=
  (selectRuns data).flatMap renderRun

/-- The whole program, given the outcome of opening and parsing the log file:
`none` models `FileNotFoundError` (caught: print the message, continue with
`data = []`), `some (Except.error e)` models a `json.load` failure (not
caught: the exception escapes), and `some (Except.ok data)` a parsed array.
The result is the list of printed strings, or the uncaught exception. -/
def runMain (file : Option (Except String (List RunRecord))) :
    Except String (List String) :=
  match file with
  | none => Except.ok ("File not found. No logs to display." :: renderAll [])
  | some (Except.error e) => Except.error e
  | some (Except.ok data) => Except.ok (renderAll data)

/-- Source `json_path = base_dir / "cu_logs.json"`: the path computed from
the script's own directory (`Path(__file__).parent`). It is never passed to
`open`. -/
def json_path (base_dir : String) : String := base_dir ++ "/" ++ "cu_logs.json"

/-- The literal argument of the source's `open("cu_logs.json")` call. -/
def openArg : String := "cu_logs.json"

/-- POSIX resolution of a relative filename against the current working
directory, which is what `open` does with a bare filename. -/
def resolveRelative (cwd rel : String) : String := cwd ++ "/" ++ rel

/-- The absolute path the program actually reads. -/
def readPath (cwd : String) : String := resolveRelative cwd openArg

/-- The program with its environment made explicit: the script's directory,
the process working directory, and the filesystem (a map from absolute path
to the outcome of opening and parsing the file there). `json_path` is
computed, as in the source, but the read itself uses the bare filename
resolved against the working directory. -/
def programFull (base_dir cwd : String)
    (fs : String → Option (Except String (List RunRecord))) :
    Except String (List String) :=
  let _unused_json_path := json_path base_dir
  runMain (fs (readPath cwd))

/-- C4: the selection keeps exactly the first `min 3 n` records of the
parsed array, each unchanged and in file order, the printed output is built
from the selected records alone (so later records are silently omitted), a
log of at most three records is kept whole, and an empty array yields no
output at all with a normal result. -/
theorem selectRuns_spec (data : List RunRecord) :
    (selectRuns data).length = min 3 data.length
    ∧ (∀ i, (hi : i < (selectRuns data).length) → (hd : i < data.length) →
        (selectRuns data).get ⟨i, hi⟩ = data.get ⟨i, hd⟩)
    ∧ runMain (some (Except.ok data)) = Except.ok ((selectRuns data).flatMap renderRun)
    ∧ (data.length ≤ 3 → selectRuns data = data)
    ∧ runMain (some (Except.ok [])) = Except.ok [] := by
  refine ⟨by simp [selectRuns], ?_, rfl, ?_, rfl⟩
  · intro i hi hd
    simp [selectRuns, List.get_eq_getElem, List.getElem_take]
  · intro h
    simp [selectRuns, List.take_of_length_le h]

/-- Four run records with empty entry maps, to exercise the truncation. -/
def dataFour : List RunRecord :=
  [⟨"T1", []⟩, ⟨"T2", []⟩, ⟨"T3", []⟩, ⟨"T4", []⟩]

/-- Two run records, to exercise the fewer-than-three case. -/
def dataTwo : List RunRecord := [⟨"T1", []⟩, ⟨"T2", []⟩]

theorem selectRuns_spec_witness :
    (∃ h1 : 1 < (selectRuns dataFour).length, ∃ h2 : 1 < dataFour.length,
      (selectRuns dataFour).get ⟨1, h1⟩ = dataFour.get ⟨1, h2⟩)
    ∧ (dataTwo.length ≤ 3 ∧ selectRuns dataTwo = dataTwo) := by
  have h1 : 1 < (selectRuns dataFour).length := by simp [selectRuns, dataFour]
  have h2 : 1 < dataFour.length := by simp [dataFour]
  have h3 : dataTwo.length ≤ 3 := by simp [dataTwo]
  exact ⟨⟨h1, h2, (selectRuns_spec dataFour).2.1 1 h1 h2⟩,
    ⟨h3, (selectRuns_spec dataTwo).2.2.2.1 h3⟩⟩

/-- C5: when the file is missing the program prints exactly the single line
`File not found. No logs to display.`, continues with an empty record list
(so no table output follows), and finishes normally (`Except.ok`). -/
theorem file_not_found_spec :
    runMain none = Except.ok ["File not found. No logs to display."] := rfl

/-- C6: the read resolves the bare filename `cu_logs.json` against the
process working directory; the script-relative `json_path` is dead — the
program's behaviour is independent of the script's own directory and depends
on the filesystem only at the working-directory path. -/
theorem read_path_spec :
    (∀ cwd, readPath cwd = cwd ++ "/" ++ "cu_logs.json")
    ∧ (∀ b₁ b₂ cwd fs, programFull b₁ cwd fs = programFull b₂ cwd fs)
    ∧ (∀ b cwd fs₁ fs₂,
        fs₁ (readPath cwd) = fs₂ (readPath cwd) →
        programFull b cwd fs₁ = programFull b cwd fs₂) := by
  refine ⟨fun _ => rfl, fun _ _ _ _ => rfl, fun b cwd fs₁ fs₂ h => ?_⟩
  simp only [programFull, h]

/-- A filesystem with no files at all. -/
def fsA : String → Option (Except String (List RunRecord)) := fun _ => none

/-- A filesystem that differs from `fsA` everywhere except at the one path
the program reads from working directory `/cwd`. -/
def fsB : String → Option (Except String (List RunRecord)) :=
  fun p => if p = "/cwd/cu_logs.json" then none else some (Except.error "parse error")

theorem read_path_spec_witness :
    fsA (readPath "/cwd") = fsB (readPath "/cwd")
    ∧ programFull "/opt/scripts" "/cwd" fsA = programFull "/opt/scripts" "/cwd" fsB := by
  have h : fsA (readPath "/cwd") = fsB (readPath "/cwd") := rfl
  exact ⟨h, read_path_spec.2.2 "/opt/scripts" "/cwd" fsA fsB h⟩

/-- C7: a parse failure of an existing file is not caught — it propagates as
the fatal result `Except.error` with its diagnostic — while the only
recovered outcome is file-not-found: both the missing-file case and any
well-parsed case finish normally. -/
theorem parse_error_fatal :
    (∀ e : String, runMain (some (Except.error e)) = Except.error e)
    ∧ (∃ out, runMain none = Except.ok out)
    ∧ (∀ data, ∃ out, runMain (some (Except.ok data)) = Except.ok out) :=
  ⟨fun _ => rfl, ⟨_, rfl⟩, fun _ => ⟨_, rfl⟩⟩

lemma tableRow_contains_first (w1 w2 w3 : Nat) (a b c : String) :
    ∃ p q, (tableRow w1 w2 w3 a b c).data = p ++ a.data ++ q := by
  refine ⟨"| ".data,
    (String.mk (List.replicate (w1 - a.length) ' ') ++ " | " ++ padTo b w2
      ++ " | " ++ padTo c w3 ++ " |").data, ?_⟩
  simp [tableRow, padTo, String.data_append, List.append_assoc]

lemma tableRow_contains_second (w1 w2 w3 : Nat) (a b c : String) :
    ∃ p q, (tableRow w1 w2 w3 a b c).data = p ++ b.data ++ q := by
  refine ⟨("| " ++ padTo a w1 ++ " | ").data,
    (String.mk (List.replicate (w2 - b.length) ' ') ++ " | " ++ padTo c w3 ++ " |").data, ?_⟩
  simp [tableRow, padTo, String.data_append, List.append_assoc]

lemma tableRow_contains_third (w1 w2 w3 : Nat) (a b c : String) :
    ∃ p q, (tableRow w1 w2 w3 a b c).data = p ++ c.data ++ q := by
  refine ⟨("| " ++ padTo a w1 ++ " | " ++ padTo b w2 ++ " | ").data,
    (String.mk (List.replicate (w3 - c.length) ' ') ++ " |").data, ?_⟩
  simp [tableRow, padTo, String.data_append, List.append_assoc]

/-- C8: each rendered record prints, in order, a blank line, the line
`## Run at ` immediately followed by the timestamp, a blank line, the table,
and a trailing blank line; the table is a markdown-compatible grid whose
first line contains the column headers `Instruction`, `Compute Units` and
`Diff`, followed by a separator line and one line per row. -/
theorem renderRun_spec (d : RunRecord) :
    renderRun d = ["", "## Run at " ++ d.timestamp, "", tabulate (rows d.entries), ""]
    ∧ (∃ hl sl drs, tableLines (rows d.entries) = hl :: sl :: drs
        ∧ drs.length = (rows d.entries).length
        ∧ (∃ p q, hl.data = p ++ "Instruction".data ++ q)
        ∧ (∃ p q, hl.data = p ++ "Compute Units".data ++ q)
        ∧ (∃ p q, hl.data = p ++ "Diff".data ++ q))
    ∧ tabulate (rows d.entries) = String.intercalate "\n" (tableLines (rows d.entries)) := by
  refine ⟨rfl, ?_, rfl⟩
  refine ⟨_, _, _, rfl, ?_, ?_, ?_, ?_⟩
  · simp [tableLines]
  · exact tableRow_contains_first _ _ _ _ _ _
  · exact tableRow_contains_second _ _ _ _ _ _
  · exact tableRow_contains_third _ _ _ _ _ _

/-- C10: a selected record with an empty entries map is not skipped — its
blank-line framing and `## Run at` header are printed, and its table is just
the header row and the separator row (zero data rows). -/
theorem empty_entries_spec (r : RunRecord) (ts : String) :
    runMain (some (Except.ok [r, ⟨ts, []⟩]))
      = Except.ok (renderRun r ++ renderRun ⟨ts, []⟩)
    ∧ renderRun ⟨ts, []⟩
      = ["", "## Run at " ++ ts, "",
         "| Instruction | Compute Units | Diff |" ++ "\n"
           ++ "|-------------|---------------|------|", ""]
    ∧ tableLines (rows [])
      = ["| Instruction | Compute Units | Diff |",
         "|-------------|---------------|------|"] := by
  refine ⟨?_, ?_, by decide⟩
  · simp [runMain, renderAll, selectRuns]
  · rw [renderRun]
    have ht : tabulate (rows [])
        = "| Instruction | Compute Units | Diff |" ++ "\n"
          ++ "|-------------|---------------|------|" := by decide
    rw [ht]

end ShowCuLogs
